import Mathlib

/-!
Verification of the NaviGPT Xcode project-file maintenance scripts
(`add_to_xcode.py`, `add_phase_files_to_xcode.py`,
`add_phase3_files_to_xcode.py`, `remove_refs.py`, `fix_path.py`).

The scripts edit the `project.pbxproj` manifest by raw-text searching and
splicing.  We embed the Python string primitives used by the scripts
(`str.find`, `str.rfind`, the `in` operator, slicing, `str.split`,
`str.join`, `str.replace`) over `List Char`, and transcribe each script's
mutation logic definition by definition.  All patterns searched for by the
scripts are non-empty, and the embedding of the primitives matches CPython
semantics on every call the scripts make (including negative-index
clamping of `find` starts and of slice positions, which the scripts reach
when a marker is absent and `find` returns `-1`).
-/

set_option maxRecDepth 100000

set_option maxHeartbeats 1600000

/-- Character-list form of a string literal. -/
def s2l (s : String) : List Char := s.data

/-- Left-to-right scan carrying the current index:
the scanning core of Python `str.find` (accumulator form, so that the
kernel can reduce it iteratively on long texts). -/
def firstMatchAux (sub : List Char) : List Char → Nat → Option Nat
  | s, acc =>
    if sub.isPrefixOf s then some acc
    else
      match s with
      | [] => none
      | _ :: rest => firstMatchAux sub rest (acc + 1)

/-- Index of the first occurrence of `sub` in `s` (`none` if absent). -/
def firstMatch (s sub : List Char) : Option Nat := firstMatchAux sub s 0

/-- Left-to-right scan remembering the last index that matched:
the scanning core of Python `str.rfind` (accumulator form). -/
def lastMatchAux (sub : List Char) : List Char → Nat → Option Nat → Option Nat
  | s, acc, best =>
    let best' := if sub.isPrefixOf s then some acc else best
    match s with
    | [] => best'
    | _ :: rest => lastMatchAux sub rest (acc + 1) best'

/-- Index of the last occurrence of `sub` in `s` (`none` if absent). -/
def lastMatch (s sub : List Char) : Option Nat := lastMatchAux sub s 0 none

/-- Python `s.find(sub, start)`: `-1` when absent; a negative `start`
counts from the end of the string, clamped at `0`. -/
def pyFindFrom (s sub : List Char) (start : Int) : Int :=
  let st : Nat := (if start < 0 then (s.length : Int) + start else start).toNat
  match firstMatch (s.drop st) sub with
  | some i => (st : Int) + i
  | none => -1

/-- Python `s.find(sub)`. -/
def pyFind (s sub : List Char) : Int := pyFindFrom s sub 0

/-- Python `s.rfind(sub, 0, stop)`: the scripts only ever pass `0` as the
second argument.  `stop` beyond the length is clamped to the length. -/
def pyRfind (s sub : List Char) (stop : Int) : Int :=
  let en : Nat := if stop < 0 then ((s.length : Int) + stop).toNat else min stop.toNat s.length
  match lastMatch (s.take en) sub with
  | some i => (i : Int)
  | none => -1

/-- Python `sub in s`. -/
def pyContains (s sub : List Char) : Bool := (firstMatch s sub).isSome

/-- Clamp a Python slice index to an actual list position
(negative indices count from the end). -/
def pySlicePos (s : List Char) (i : Int) : Nat :=
  if i < 0 then ((s.length : Int) + i).toNat else min i.toNat s.length

/-- `s[:i] + ins + s[i:]` with Python slicing semantics: the splice
primitive every insertion in the scripts is built from. -/
def pySplice (s : List Char) (i : Int) (ins : List Char) : List Char :=
  s.take (pySlicePos s i) ++ ins ++ s.drop (pySlicePos s i)

/-! ### Marker and anchor strings used by the scripts -/

def bfSectionMarker : List Char := s2l "/* Begin PBXBuildFile section */"

def frSectionMarker : List Char := s2l "/* Begin PBXFileReference section */"

def contentViewAnchor : List Char := s2l "ContentView.swift"

def childrenOpen : List Char := s2l "children = ("

def closeParen : List Char := s2l ");"

def filesOpen : List Char := s2l "files = ("

def newlinePat : List Char := s2l "\n"

/-- `add_phase_files_to_xcode.py` line 88 / `add_phase3_files_to_xcode.py`
line 82: the hard-coded NaviGPT target Sources-phase marker. -/
def mainSourcesMarker : List Char := s2l "E1F569CB2C501D880010BF96 /* Sources */"

/-- `add_phase_files_to_xcode.py` line 139: the NaviGPTTests target
Sources-phase marker. -/
def testSourcesMarker : List Char := s2l "E1F569DB2C501D8A0010BF96 /* Sources */"

/-- `add_phase_files_to_xcode.py` line 124: the Intern1Tests group marker. -/
def intern1Marker : List Char := s2l "E1F569E22C501D8A0010BF96 /* Intern1Tests */"

/-- `add_phase3_files_to_xcode.py` line 64: the Services group marker. -/
def servicesMarker : List Char := s2l "/* Services */"

/-- `add_to_xcode.py` line 72: anchor for the sources build phase. -/
def sourcesBraceMarker : List Char := s2l "/* Sources */ = \x7b"

/-- Display name hard-coded in `add_to_xcode.py`, `remove_refs.py` and
`fix_path.py`. -/
def naviCoreName : List Char := s2l "NaviGPTCore.swift"

/-! ### The inserted record lines

Each line is the body followed by a single final newline, exactly as the
f-strings in the sources build them (`{{`/`}}` are literal braces). -/

/-- `PBXBuildFile` entry text before the final newline. -/
def newBuildFileBody (build_file_uuid file_name file_ref_uuid : List Char) : List Char :=
  s2l "\t\t" ++ build_file_uuid ++ s2l " /* " ++ file_name ++
  s2l " in Sources */ = \x7bisa = PBXBuildFile; fileRef = " ++ file_ref_uuid ++
  s2l " /* " ++ file_name ++ s2l " */; \x7d;"

/-- The `PBXBuildFile` entry line inserted for one file. -/
def newBuildFileLine (build_file_uuid file_name file_ref_uuid : List Char) : List Char :=
  newBuildFileBody build_file_uuid file_name file_ref_uuid ++ s2l "\n"

/-- `PBXFileReference` entry text before the final newline. -/
def newFileRefBody (file_ref_uuid file_name : List Char) : List Char :=
  s2l "\t\t" ++ file_ref_uuid ++ s2l " /* " ++ file_name ++
  s2l " */ = \x7bisa = PBXFileReference; lastKnownFileType = sourcecode.swift; path = " ++
  file_name ++ s2l "; sourceTree = \"<group>\"; \x7d;"

/-- The `PBXFileReference` entry line inserted for one file. -/
def newFileRefLine (file_ref_uuid file_name : List Char) : List Char :=
  newFileRefBody file_ref_uuid file_name ++ s2l "\n"

/-- The group-children membership text inserted before the `);` that
closes a `children = (` list. -/
def groupChildLine (file_ref_uuid file_name : List Char) : List Char :=
  s2l "\t\t\t\t" ++ file_ref_uuid ++ s2l " /* " ++ file_name ++ s2l " */,\n\t\t\t"

/-- The target-sources membership text inserted before the `);` that
closes a `files = (` list. -/
def targetFileLine (build_file_uuid file_name : List Char) : List Char :=
  s2l "\t\t\t\t" ++ build_file_uuid ++ s2l " /* " ++ file_name ++
  s2l " in Sources */,\n\t\t\t"

/-! ### Shared insertion steps -/

/-- Insert `line` right after the newline that ends the line holding the
first occurrence of `marker` (`add_phase*_to_xcode.py`: `content.find(marker)`,
then `content.find('\n', pos) + 1`, then slice-splice; the `-1` case of a
missing marker flows through unchecked, exactly as in the sources). -/
def insertAfterMarkerLine (c marker line : List Char) : List Char :=
  let mpos := pyFind c marker
  let ipos := pyFindFrom c newlinePat mpos + 1
  pySplice c ipos line

/-- Group-membership insertion anchored at `ContentView.swift`
(`add_to_xcode.py` lines 61-69, `add_phase_files_to_xcode.py` lines 79-84
and 131-136, `add_phase3_files_to_xcode.py` lines 73-78): find the anchor,
`rfind` the `children = (` before it, insert before the closing `);`. -/
def groupInsertViaContentView (c file_ref_uuid file_name : List Char) : List Char :=
  let cv := pyFind c contentViewAnchor
  if cv = -1 then c
  else
    let ss := pyRfind c childrenOpen cv
    if ss = -1 then c
    else
      let ce := pyFindFrom c closeParen ss
      pySplice c ce (groupChildLine file_ref_uuid file_name)

/-- Target build-phase insertion of the phase scripts
(`add_phase_files_to_xcode.py` lines 88-92 and 139-143,
`add_phase3_files_to_xcode.py` lines 82-86): find the hard-coded target
marker; if present, find `files = (` after it and insert before the
closing `);` (the inner finds are unguarded, as in the sources). -/
def targetInsert (c marker build_file_uuid file_name : List Char) : List Char :=
  let t := pyFind c marker
  if t = -1 then c
  else
    let fs := pyFindFrom c filesOpen t
    let fe := pyFindFrom c closeParen fs
    pySplice c fe (targetFileLine build_file_uuid file_name)

/-- The two unconditional entry insertions performed for a
not-yet-registered file (`PBXBuildFile` then `PBXFileReference`). -/
def afterEntries (c file_name file_ref_uuid build_file_uuid : List Char) : List Char :=
  insertAfterMarkerLine
    (insertAfterMarkerLine c bfSectionMarker
      (newBuildFileLine build_file_uuid file_name file_ref_uuid))
    frSectionMarker (newFileRefLine file_ref_uuid file_name)

/-! ### `add_phase_files_to_xcode.py` -/

/-- Main-target loop body of `add_phase_files_to_xcode.py` (lines 52-94):
skip when the display name already occurs anywhere in the manifest,
otherwise perform the four sub-insertions. -/
def processMainFile (c file_name file_ref_uuid build_file_uuid : List Char) : List Char :=
  if pyContains c file_name then c
  else
    targetInsert
      (groupInsertViaContentView
        (afterEntries c file_name file_ref_uuid build_file_uuid)
        file_ref_uuid file_name)
      mainSourcesMarker build_file_uuid file_name

/-- Test-target loop body of `add_phase_files_to_xcode.py` (lines 98-145):
like the main loop, but `Phase2Tests` files go into the Intern1Tests group
and memberships go to the NaviGPTTests target. -/
def processTestFile (c file_name file_ref_uuid build_file_uuid : List Char) : List Char :=
  if pyContains c file_name then c
  else
    let c2 := afterEntries c file_name file_ref_uuid build_file_uuid
    let c3 :=
      if pyContains file_name (s2l "Phase2Tests") then
        let ip := pyFind c2 intern1Marker
        if ip = -1 then c2
        else
          let cs := pyFindFrom c2 childrenOpen ip
          let ce := pyFindFrom c2 closeParen cs
          pySplice c2 ce (groupChildLine file_ref_uuid file_name)
      else groupInsertViaContentView c2 file_ref_uuid file_name
    targetInsert c3 testSourcesMarker build_file_uuid file_name

/-- The `main_target_files` list of `add_phase_files_to_xcode.py`. -/
def mainTargetFiles : List (List Char × List Char) :=
  [ (s2l "NaviGPT/ConfigManager.swift", s2l "ConfigManager.swift"),
    (s2l "NaviGPT/NaviGPTCore.swift", s2l "NaviGPTCore.swift"),
    (s2l "NaviGPT/Models/ModelTypes.swift", s2l "ModelTypes.swift"),
    (s2l "NaviGPT/Models/NavigationContext.swift", s2l "NavigationContext.swift"),
    (s2l "NaviGPT/Models/ObstacleInfo.swift", s2l "ObstacleInfo.swift"),
    (s2l "NaviGPT/Models/VisionModels.swift", s2l "VisionModels.swift"),
    (s2l "NaviGPT/Services/CoreMLModelManager.swift", s2l "CoreMLModelManager.swift"),
    (s2l "NaviGPT/Services/VisionModelProcessor.swift", s2l "VisionModelProcessor.swift"),
    (s2l "NaviGPT/Services/DepthEstimationProcessor.swift", s2l "DepthEstimationProcessor.swift") ]

/-- The `test_target_files` list of `add_phase_files_to_xcode.py`. -/
def testTargetFiles : List (List Char × List Char) :=
  [ (s2l "NaviGPT/Tests/ConfigManagerTests.swift", s2l "ConfigManagerTests.swift"),
    (s2l "NaviGPT/Tests/ObstacleInfoTests.swift", s2l "ObstacleInfoTests.swift"),
    (s2l "Intern1Tests/Phase2Tests.swift", s2l "Phase2Tests.swift") ]

/-- Main-target loop of `add_phase_files_to_xcode.py`.  `generate_uuid` is
modelled by an identifier supply `supply : Nat → List Char` consulted at a
running counter `k`; a skipped file consumes no identifiers, exactly as
`generate_uuid()` is only called past the duplicate check. -/
def runMainFiles (files : List (List Char × List Char)) (supply : Nat → List Char)
    (k : Nat) (c : List Char) : List Char × Nat :=
  match files with
  | [] => (c, k)
  | (_, n) :: rest =>
    if pyContains c n then runMainFiles rest supply k c
    else runMainFiles rest supply (k + 2)
      (processMainFile c n (supply k) (supply (k + 1)))

/-- Test-target loop of `add_phase_files_to_xcode.py`. -/
def runTestFiles (files : List (List Char × List Char)) (supply : Nat → List Char)
    (k : Nat) (c : List Char) : List Char × Nat :=
  match files with
  | [] => (c, k)
  | (_, n) :: rest =>
    if pyContains c n then runTestFiles rest supply k c
    else runTestFiles rest supply (k + 2)
      (processTestFile c n (supply k) (supply (k + 1)))

/-- `add_files_to_project` of `add_phase_files_to_xcode.py`: read, process
the main-target list then the test-target list against the same in-memory
content, write back once.  The returned value is the content written. -/
def addPhaseFiles (supply : Nat → List Char) (c : List Char) : List Char :=
  let r1 := runMainFiles mainTargetFiles supply 0 c
  (runTestFiles testTargetFiles supply r1.2 r1.1).1

/-! ### `add_phase3_files_to_xcode.py` -/

/-- The Services-branch group insertion of `add_phase3_files_to_xcode.py`
(lines 64-70): `rfind('children = (', 0, services_marker_pos + 100)`,
then insert before the closing `);`. -/
def servicesBranch (c file_ref_uuid file_name : List Char) : List Char :=
  let svc := pyFind c servicesMarker
  let ss := pyRfind c childrenOpen (svc + 100)
  if ss = -1 then c
  else
    let ce := pyFindFrom c closeParen ss
    pySplice c ce (groupChildLine file_ref_uuid file_name)

/-- Loop body of `add_phase3_files_to_xcode.py` (lines 38-88): duplicate
check, the two entry insertions, the group insertion (Services marker
first, `ContentView.swift` anchor as fallback), then the main-target
membership. -/
def processPhase3File (c file_name file_ref_uuid build_file_uuid : List Char) : List Char :=
  if pyContains c file_name then c
  else
    let c2 := afterEntries c file_name file_ref_uuid build_file_uuid
    let c3 :=
      if pyFind c2 servicesMarker = -1 then
        groupInsertViaContentView c2 file_ref_uuid file_name
      else servicesBranch c2 file_ref_uuid file_name
    targetInsert c3 mainSourcesMarker build_file_uuid file_name

/-- The `main_target_files` list of `add_phase3_files_to_xcode.py`. -/
def phase3Files : List (List Char × List Char) :=
  [ (s2l "NaviGPT/Services/RealTimeCameraProcessor.swift", s2l "RealTimeCameraProcessor.swift"),
    (s2l "NaviGPT/Services/EnhancedLiDARProcessor.swift", s2l "EnhancedLiDARProcessor.swift") ]

/-- Loop of `add_phase3_files_to_xcode.py`. -/
def runPhase3Files (files : List (List Char × List Char)) (supply : Nat → List Char)
    (k : Nat) (c : List Char) : List Char × Nat :=
  match files with
  | [] => (c, k)
  | (_, n) :: rest =>
    if pyContains c n then runPhase3Files rest supply k c
    else runPhase3Files rest supply (k + 2)
      (processPhase3File c n (supply k) (supply (k + 1)))

/-- `add_files_to_project` of `add_phase3_files_to_xcode.py`. -/
def addPhase3Files (supply : Nat → List Char) (c : List Char) : List Char :=
  (runPhase3Files phase3Files supply 0 c).1

/-! ### `add_to_xcode.py` -/

/-- First entry insertion of `add_file_manually` (runs only after the
`PBXBuildFile` marker was checked to be present). -/
def afmEntry1 (c file_ref_uuid build_file_uuid : List Char) : List Char :=
  insertAfterMarkerLine c bfSectionMarker
    (newBuildFileLine build_file_uuid naviCoreName file_ref_uuid)

/-- Second entry insertion of `add_file_manually`. -/
def afmEntry2 (c file_ref_uuid : List Char) : List Char :=
  insertAfterMarkerLine c frSectionMarker (newFileRefLine file_ref_uuid naviCoreName)

/-- Sources build-phase insertion of `add_file_manually` (lines 72-79):
unlike the phase scripts, both inner finds are guarded. -/
def afmSources (c build_file_uuid : List Char) : List Char :=
  let sp := pyFind c sourcesBraceMarker
  if sp = -1 then c
  else
    let fs := pyFindFrom c filesOpen sp
    if fs = -1 then c
    else
      let fe := pyFindFrom c closeParen fs
      pySplice c fe (targetFileLine build_file_uuid naviCoreName)

/-- The tail of `add_file_manually` past the two fatal marker checks:
group insertion (soft) then sources insertion (soft). -/
def afmFinish (c file_ref_uuid build_file_uuid : List Char) : List Char :=
  afmSources (groupInsertViaContentView c file_ref_uuid naviCoreName) build_file_uuid

/-- `add_file_manually` of `add_to_xcode.py`: `none` models `return False`
(no write, exit 1); `some out` models writing `out` back. -/
def addFileManually (c file_ref_uuid build_file_uuid : List Char) : Option (List Char) :=
  if pyFind c bfSectionMarker = -1 then none
  else
    let c1 := afmEntry1 c file_ref_uuid build_file_uuid
    if pyFind c1 frSectionMarker = -1 then none
    else some (afmFinish (afmEntry2 c1 file_ref_uuid) file_ref_uuid build_file_uuid)

/-! ### `remove_refs.py` and `fix_path.py` -/

/-- Python `content.split('\n')`. -/
def splitLines (s : List Char) : List (List Char) :=
  match s with
  | [] => [[]]
  | c :: rest =>
    if c = '\n' then [] :: splitLines rest
    else
      match splitLines rest with
      | l :: ls => (c :: l) :: ls
      | [] => [[c]]

/-- Python `'\n'.join(lines)`. -/
def joinLines (lines : List (List Char)) : List Char :=
  match lines with
  | [] => []
  | [l] => l
  | l :: ls => l ++ '\n' :: joinLines ls

/-- The whole of `remove_refs.py` lines 16-24 with the display name as a
parameter: keep exactly the lines not containing `name`, rejoin. -/
def removeLinesContaining (name c : List Char) : List Char :=
  joinLines ((splitLines c).filter (fun line => !pyContains line name))

/-- `remove_refs.py` as shipped: the name is hard-coded. -/
def removeRefs (c : List Char) : List Char := removeLinesContaining naviCoreName c

/-- Python `s.replace(pat, rep)` for a non-empty `pat` (the only way the
scripts call it): leftmost, non-overlapping. -/
def pyReplace (s pat rep : List Char) : List Char :=
  match s with
  | [] => []
  | c :: rest =>
    if h : pat ≠ [] ∧ pat.isPrefixOf (c :: rest) then
      rep ++ pyReplace ((c :: rest).drop pat.length) pat rep
    else c :: pyReplace rest pat rep
termination_by s.length
decreasing_by
  · have hp : 0 < pat.length := List.length_pos.mpr h.1
    simp only [List.length_drop, List.length_cons]
    omega
  · simp

/-- The pattern `fix_path.py` replaces — with itself. -/
def fixPathPattern : List Char := s2l "path = NaviGPTCore.swift;"

/-- `fix_path.py` lines 17-33: the only mutation is
`content.replace('path = NaviGPTCore.swift;', 'path = NaviGPTCore.swift;')`;
the subsequent line scan only prints and the content is written back. -/
def fixPath (c : List Char) : List Char := pyReplace c fixPathPattern fixPathPattern

/-! ### Occurrence predicate used to state the theorems -/

/-- `x` occurs in `s` starting at index `a`. -/
def OccursAt (x s : List Char) (a : Nat) : Prop := ∃ t, s.drop a = x ++ t

/-! ## Basic properties of the embedded primitives -/

theorem isPrefixOf_exists {x s : List Char} :
    x.isPrefixOf s = true ↔ ∃ t, s = x ++ t := by
  induction x generalizing s with
  | nil => simp [List.isPrefixOf]
  | cons a as ih =>
    cases s with
    | nil => simp [List.isPrefixOf]
    | cons b bs =>
      simp only [List.isPrefixOf, Bool.and_eq_true, beq_iff_eq, ih, List.cons_append,
        List.cons.injEq]
      constructor
      · rintro ⟨rfl, t, rfl⟩
        exact ⟨t, rfl, rfl⟩
      · rintro ⟨t, rfl, rfl⟩
        exact ⟨rfl, t, rfl⟩

theorem firstMatchAux_eq_some {sub s : List Char} {acc i : Nat}
    (h : firstMatchAux sub s acc = some i) :
    acc ≤ i ∧ ∃ t, s.drop (i - acc) = sub ++ t := by
  induction s generalizing acc with
  | nil =>
    unfold firstMatchAux at h
    by_cases hp : sub.isPrefixOf []
    · simp [hp] at h
      subst h
      obtain ⟨t, ht⟩ := isPrefixOf_exists.mp hp
      obtain ⟨hsub, -⟩ := List.append_eq_nil.mp ht.symm
      exact ⟨le_rfl, [], by simp [hsub]⟩
    · simp [hp] at h
  | cons c rest ih =>
    unfold firstMatchAux at h
    by_cases hp : sub.isPrefixOf (c :: rest)
    · simp [hp] at h
      subst h
      obtain ⟨t, ht⟩ := isPrefixOf_exists.mp hp
      exact ⟨le_rfl, t, by simpa using ht⟩
    · simp [hp] at h
      obtain ⟨hle, t, ht⟩ := ih h
      refine ⟨by omega, t, ?_⟩
      have he : i - acc = (i - (acc + 1)) + 1 := by omega
      rw [he, List.drop_succ_cons]
      exact ht

theorem firstMatchAux_isSome {sub s : List Char} {a : Nat} (acc : Nat) (t : List Char)
    (h : s.drop a = sub ++ t) : (firstMatchAux sub s acc).isSome := by
  induction s generalizing a acc with
  | nil =>
    simp at h
    unfold firstMatchAux
    have hp : sub.isPrefixOf [] = true := isPrefixOf_exists.mpr ⟨[], by simp [h.1]⟩
    simp [hp]
  | cons c rest ih =>
    unfold firstMatchAux
    by_cases hp : sub.isPrefixOf (c :: rest)
    · simp [hp]
    · simp [hp]
      cases a with
      | zero =>
        simp at h
        exact absurd (isPrefixOf_exists.mpr ⟨t, h⟩) (by simpa using hp)
      | succ a' =>
        simp only [List.drop_succ_cons] at h
        simpa using ih (acc + 1) h

theorem firstMatch_eq_some {s sub : List Char} {i : Nat}
    (h : firstMatch s sub = some i) : ∃ t, s.drop i = sub ++ t := by
  have := firstMatchAux_eq_some (h : firstMatchAux sub s 0 = some i)
  simpa using this.2

theorem firstMatch_isSome_of_occurs {s sub : List Char} {a : Nat} (t : List Char)
    (h : s.drop a = sub ++ t) : (firstMatch s sub).isSome :=
  firstMatchAux_isSome 0 t h

theorem pyContains_iff_occurs {s sub : List Char} :
    pyContains s sub = true ↔ ∃ a, OccursAt sub s a := by
  unfold pyContains
  constructor
  · intro h
    obtain ⟨i, hi⟩ := Option.isSome_iff_exists.mp h
    exact ⟨i, firstMatch_eq_some hi⟩
  · rintro ⟨a, t, ht⟩
    exact firstMatch_isSome_of_occurs t ht

theorem occursAt_decomp {x s : List Char} {a : Nat} (hx : x ≠ [])
    (h : OccursAt x s a) : ∃ u v, s = u ++ x ++ v ∧ u.length = a := by
  obtain ⟨t, ht⟩ := h
  have hlen : s.length - a = x.length + t.length := by
    have := congrArg List.length ht
    simpa using this
  have hxpos : 0 < x.length := List.length_pos.mpr hx
  have ha : a ≤ s.length := by omega
  refine ⟨s.take a, t, ?_, by simp [List.length_take]; omega⟩
  conv_lhs => rw [← List.take_append_drop a s]
  rw [ht, ← List.append_assoc]

theorem occursAt_append_mid (u x w : List Char) : OccursAt x (u ++ x ++ w) u.length :=
  ⟨w, by rw [List.append_assoc, List.drop_left]⟩

theorem occursAt_keep_left {x s : List Char} {a q : Nat} (mid : List Char)
    (hx : x ≠ []) (h : OccursAt x s a) (hq : a + x.length ≤ q) :
    OccursAt x (s.take q ++ mid ++ s.drop q) a := by
  obtain ⟨u, v, rfl, hu⟩ := occursAt_decomp hx h
  have h1 : (u ++ x ++ v).take q = u ++ x ++ v.take (q - (a + x.length)) := by
    rw [List.take_append_eq_append_take, List.take_append_eq_append_take,
      List.take_of_length_le (by simp [hu]; omega),
      List.take_of_length_le (by simp [hu]; omega)]
    congr 2
    simp [hu]
  have h2 : (u ++ x ++ v).drop q = v.drop (q - (a + x.length)) := by
    rw [List.drop_append_eq_append_drop, List.drop_append_eq_append_drop,
      List.drop_eq_nil_of_le (by simp [hu]; omega),
      List.drop_eq_nil_of_le (by simp [hu]; omega)]
    simp
    congr 1
    simp [hu]
  rw [h1, h2]
  have hassoc :
      u ++ x ++ v.take (q - (a + x.length)) ++ mid ++ v.drop (q - (a + x.length)) =
      u ++ x ++ (v.take (q - (a + x.length)) ++ mid ++ v.drop (q - (a + x.length))) := by
    simp [List.append_assoc]
  rw [hassoc]
  have := occursAt_append_mid u x
    (v.take (q - (a + x.length)) ++ mid ++ v.drop (q - (a + x.length)))
  rwa [hu] at this

theorem occursAt_keep_right {x s : List Char} {a q : Nat} (mid : List Char)
    (hx : x ≠ []) (h : OccursAt x s a) (hq : q ≤ a) :
    ∃ a', OccursAt x (s.take q ++ mid ++ s.drop q) a' := by
  obtain ⟨u, v, rfl, hu⟩ := occursAt_decomp hx h
  have e1 : q - u.length = 0 := by omega
  have e2 : q - (u.length + x.length) = 0 := by omega
  have h1 : (u ++ x ++ v).take q = u.take q := by
    rw [List.take_append_eq_append_take, List.take_append_eq_append_take]
    simp [List.length_append, e1, e2]
  have h2 : (u ++ x ++ v).drop q = u.drop q ++ x ++ v := by
    rw [List.drop_append_eq_append_drop, List.drop_append_eq_append_drop]
    simp [List.length_append, e1, e2]
  rw [h1, h2]
  have hassoc :
      u.take q ++ mid ++ (u.drop q ++ x ++ v) =
      (u.take q ++ mid ++ u.drop q) ++ x ++ v := by
    simp [List.append_assoc]
  rw [hassoc]
  exact ⟨_, occursAt_append_mid _ x v⟩

/-- Splicing at a position that is the start of the text, the end of the
text, or just after a newline can never destroy an occurrence of a pattern
whose only newline is its final character: the cut point cannot fall
strictly inside such an occurrence. -/
theorem occurs_splice_newline_cut {x s : List Char} {a q : Nat} (mid : List Char)
    (hcut : q = 0 ∨ ∃ p, q = p + 1 ∧ s[p]? = some '\n')
    (b : List Char) (hxb : x = b ++ ['\n']) (hnb : '\n' ∉ b)
    (h : OccursAt x s a) :
    ∃ a', OccursAt x (s.take q ++ mid ++ s.drop q) a' := by
  have hx : x ≠ [] := by simp [hxb]
  by_cases h1 : a + x.length ≤ q
  · exact ⟨a, occursAt_keep_left mid hx h h1⟩
  by_cases h2 : q ≤ a
  · exact occursAt_keep_right mid hx h h2
  exfalso
  push_neg at h1 h2
  rcases hcut with rfl | ⟨p, rfl, hp⟩
  · omega
  obtain ⟨u, v, rfl, hu⟩ := occursAt_decomp hx h
  have hxlen : x.length = b.length + 1 := by simp [hxb]
  have hxp : x[p - a]? = some '\n' := by
    rw [List.append_assoc] at hp
    rw [List.getElem?_append_right (by omega : u.length ≤ p)] at hp
    rw [List.getElem?_append_left (by simp [hu]; omega)] at hp
    rwa [hu] at hp
  have hblt : p - a < b.length := by omega
  rw [hxb, List.getElem?_append_left hblt] at hxp
  exact hnb (List.getElem?_mem hxp)

/-- The slice position `find('\n', start) + 1` is always `0`, the end of
the text, or the position just after a newline. -/
theorem pyFindFrom_newline_cut (s : List Char) (start : Int) :
    ∃ q, q ≤ s.length ∧ (q = 0 ∨ ∃ p, q = p + 1 ∧ s[p]? = some '\n') ∧
      pySlicePos s (pyFindFrom s newlinePat start + 1) = q := by
  unfold pyFindFrom
  set st := (if start < 0 then (s.length : Int) + start else start).toNat with hst
  rcases hfm : firstMatch (s.drop st) newlinePat with _ | i
  · refine ⟨0, Nat.zero_le _, Or.inl rfl, ?_⟩
    simp [hfm, pySlicePos]
  · obtain ⟨t, ht⟩ := firstMatch_eq_some hfm
    rw [List.drop_drop] at ht
    have hlt : st + i < s.length := by
      have hl := congrArg List.length ht
      simp [newlinePat, s2l] at hl
      omega
    have hget : s[st + i]? = some '\n' := by
      have h0 : (s.drop (st + i))[0]? = some '\n' := by
        rw [ht]
        simp [newlinePat, s2l]
      rw [List.getElem?_drop] at h0
      simpa using h0
    refine ⟨st + i + 1, by omega, Or.inr ⟨st + i, rfl, hget⟩, ?_⟩
    simp only [hfm, pySlicePos]
    have hnn : ¬((st : Int) + i + 1 < 0) := by omega
    simp [hnn]
    omega

/-- `insertAfterMarkerLine` always splices at a cut position of the shape
described by `pyFindFrom_newline_cut`. -/
theorem insertAfterMarkerLine_shape (s marker line : List Char) :
    ∃ q, q ≤ s.length ∧ (q = 0 ∨ ∃ p, q = p + 1 ∧ s[p]? = some '\n') ∧
      insertAfterMarkerLine s marker line = s.take q ++ line ++ s.drop q := by
  obtain ⟨q, hq, hcut, hpos⟩ := pyFindFrom_newline_cut s (pyFind s marker)
  refine ⟨q, hq, hcut, ?_⟩
  show List.take (pySlicePos s (pyFindFrom s newlinePat (pyFind s marker) + 1)) s ++ line ++
    List.drop (pySlicePos s (pyFindFrom s newlinePat (pyFind s marker) + 1)) s =
    List.take q s ++ line ++ List.drop q s
  rw [hpos]

theorem nl_not_mem_newBuildFileBody {bu n fu : List Char}
    (h1 : '\n' ∉ bu) (h2 : '\n' ∉ n) (h3 : '\n' ∉ fu) :
    '\n' ∉ newBuildFileBody bu n fu := by
  unfold newBuildFileBody
  intro hm
  simp only [List.mem_append] at hm
  rcases hm with ((((((((h | h) | h) | h) | h) | h) | h) | h) | h)
  · exact absurd h (by decide)
  · exact h1 h
  · exact absurd h (by decide)
  · exact h2 h
  · exact absurd h (by decide)
  · exact h3 h
  · exact absurd h (by decide)
  · exact h2 h
  · exact absurd h (by decide)

theorem nl_not_mem_newFileRefBody {fu n : List Char}
    (h1 : '\n' ∉ fu) (h2 : '\n' ∉ n) :
    '\n' ∉ newFileRefBody fu n := by
  unfold newFileRefBody
  intro hm
  simp only [List.mem_append] at hm
  rcases hm with ((((((h | h) | h) | h) | h) | h) | h)
  · exact absurd h (by decide)
  · exact h1 h
  · exact absurd h (by decide)
  · exact h2 h
  · exact absurd h (by decide)
  · exact h2 h
  · exact absurd h (by decide)

/-- Whatever line is handed to `insertAfterMarkerLine`, the result
contains that line. -/
theorem contains_insertAfterMarkerLine_self (c marker line : List Char) :
    pyContains (insertAfterMarkerLine c marker line) line = true := by
  obtain ⟨q, hq, hcut, heq⟩ := insertAfterMarkerLine_shape c marker line
  rw [heq]
  exact pyContains_iff_occurs.mpr ⟨(c.take q).length, occursAt_append_mid _ _ _⟩

/-- After the two entry insertions the `PBXFileReference` line is present. -/
theorem afterEntries_contains_fileRef (c n fu bu : List Char) :
    pyContains (afterEntries c n fu bu) (newFileRefLine fu n) = true :=
  contains_insertAfterMarkerLine_self _ _ _

/-- After the two entry insertions the `PBXBuildFile` line is present:
the second entry insertion cuts just after a newline, which cannot fall
strictly inside the first inserted line. -/
theorem afterEntries_contains_buildFile {c n fu bu : List Char}
    (h1 : '\n' ∉ bu) (h2 : '\n' ∉ n) (h3 : '\n' ∉ fu) :
    pyContains (afterEntries c n fu bu) (newBuildFileLine bu n fu) = true := by
  have hc1 : pyContains (insertAfterMarkerLine c bfSectionMarker
      (newBuildFileLine bu n fu)) (newBuildFileLine bu n fu) = true :=
    contains_insertAfterMarkerLine_self _ _ _
  set c1 := insertAfterMarkerLine c bfSectionMarker (newBuildFileLine bu n fu) with hc1def
  obtain ⟨a, ha⟩ := pyContains_iff_occurs.mp hc1
  obtain ⟨q, hq, hcut, heq⟩ := insertAfterMarkerLine_shape c1 frSectionMarker
    (newFileRefLine fu n)
  have hae : afterEntries c n fu bu = c1.take q ++ newFileRefLine fu n ++ c1.drop q := by
    unfold afterEntries
    rw [← hc1def, heq]
  rw [hae]
  obtain ⟨a', ha'⟩ := occurs_splice_newline_cut (newFileRefLine fu n) hcut
    (newBuildFileBody bu n fu) rfl (nl_not_mem_newBuildFileBody h1 h2 h3) ha
  exact pyContains_iff_occurs.mpr ⟨a', ha'⟩

/-! ## Insertion-only structure: the original text is a subsequence -/

theorem sublist_pySplice (s : List Char) (i : Int) (t : List Char) :
    s.Sublist (pySplice s i t) := by
  unfold pySplice
  conv_lhs => rw [← List.take_append_drop (pySlicePos s i) s]
  exact List.Sublist.append (List.sublist_append_left _ t) (List.Sublist.refl _)

theorem sublist_insertAfterMarkerLine (c marker line : List Char) :
    c.Sublist (insertAfterMarkerLine c marker line) :=
  sublist_pySplice c _ line

theorem sublist_afterEntries (c n fu bu : List Char) :
    c.Sublist (afterEntries c n fu bu) :=
  (sublist_insertAfterMarkerLine _ _ _).trans (sublist_insertAfterMarkerLine _ _ _)

theorem sublist_groupInsertViaContentView (c fu n : List Char) :
    c.Sublist (groupInsertViaContentView c fu n) := by
  unfold groupInsertViaContentView
  by_cases h1 : pyFind c contentViewAnchor = -1
  · simp [h1]
  · by_cases h2 : pyRfind c childrenOpen (pyFind c contentViewAnchor) = -1
    · simp [h1, h2]
    · simp [h1, h2]
      exact sublist_pySplice _ _ _

theorem sublist_targetInsert (c marker bu n : List Char) :
    c.Sublist (targetInsert c marker bu n) := by
  unfold targetInsert
  by_cases h1 : pyFind c marker = -1
  · simp [h1]
  · simp [h1]
    exact sublist_pySplice _ _ _

theorem sublist_servicesBranch (c fu n : List Char) :
    c.Sublist (servicesBranch c fu n) := by
  unfold servicesBranch
  by_cases h1 : pyRfind c childrenOpen (pyFind c servicesMarker + 100) = -1
  · simp [h1]
  · simp [h1]
    exact sublist_pySplice _ _ _

theorem sublist_processMainFile (c n fu bu : List Char) :
    c.Sublist (processMainFile c n fu bu) := by
  unfold processMainFile
  by_cases h : pyContains c n
  · simp [h]
  · simp [h]
    exact ((sublist_afterEntries c n fu bu).trans
      (sublist_groupInsertViaContentView _ fu n)).trans (sublist_targetInsert _ _ bu n)

theorem sublist_processTestFile (c n fu bu : List Char) :
    c.Sublist (processTestFile c n fu bu) := by
  unfold processTestFile
  by_cases h : pyContains c n
  · simp [h]
  · simp only [h, Bool.false_eq_true, if_false]
    refine ((sublist_afterEntries c n fu bu).trans ?_).trans (sublist_targetInsert _ _ bu n)
    by_cases hp : pyContains n (s2l "Phase2Tests")
    · simp only [hp, if_true]
      by_cases hi : pyFind (afterEntries c n fu bu) intern1Marker = -1
      · simp [hi]
      · simp [hi]
        exact sublist_pySplice _ _ _
    · simp only [hp, Bool.false_eq_true, if_false]
      exact sublist_groupInsertViaContentView _ fu n

theorem sublist_processPhase3File (c n fu bu : List Char) :
    c.Sublist (processPhase3File c n fu bu) := by
  unfold processPhase3File
  by_cases h : pyContains c n
  · simp [h]
  · simp only [h, Bool.false_eq_true, if_false]
    refine ((sublist_afterEntries c n fu bu).trans ?_).trans (sublist_targetInsert _ _ bu n)
    by_cases hs : pyFind (afterEntries c n fu bu) servicesMarker = -1
    · simp only [hs, if_true]
      exact sublist_groupInsertViaContentView _ fu n
    · simp only [hs, if_false]
      exact sublist_servicesBranch _ fu n

theorem sublist_runMainFiles (files : List (List Char × List Char))
    (supply : Nat → List Char) :
    ∀ (k : Nat) (c : List Char), c.Sublist (runMainFiles files supply k c).1 := by
  induction files with
  | nil =>
    intro k c
    simp [runMainFiles]
  | cons p rest ih =>
    intro k c
    unfold runMainFiles
    by_cases h : pyContains c p.2
    · simpa [h] using ih k c
    · simp only [h, Bool.false_eq_true, if_false]
      exact (sublist_processMainFile c p.2 (supply k) (supply (k + 1))).trans (ih _ _)

theorem sublist_runTestFiles (files : List (List Char × List Char))
    (supply : Nat → List Char) :
    ∀ (k : Nat) (c : List Char), c.Sublist (runTestFiles files supply k c).1 := by
  induction files with
  | nil =>
    intro k c
    simp [runTestFiles]
  | cons p rest ih =>
    intro k c
    unfold runTestFiles
    by_cases h : pyContains c p.2
    · simpa [h] using ih k c
    · simp only [h, Bool.false_eq_true, if_false]
      exact (sublist_processTestFile c p.2 (supply k) (supply (k + 1))).trans (ih _ _)

/-! ## Line splitting and joining (`remove_refs.py`) -/

theorem splitLines_ne_nil (s : List Char) : splitLines s ≠ [] := by
  induction s with
  | nil => simp [splitLines]
  | cons c rest ih =>
    unfold splitLines
    rcases hr : splitLines rest with _ | ⟨l, ls⟩
    · exact absurd hr ih
    · by_cases h : c = '\n' <;> simp [h, hr]

theorem nl_not_mem_of_mem_splitLines {s l : List Char} (hl : l ∈ splitLines s) :
    '\n' ∉ l := by
  induction s generalizing l with
  | nil =>
    simp [splitLines] at hl
    simp [hl]
  | cons c rest ih =>
    unfold splitLines at hl
    by_cases h : c = '\n'
    · simp only [h, if_true] at hl
      rcases List.mem_cons.mp hl with rfl | hl
      · simp
      · exact ih hl
    · rcases hr : splitLines rest with _ | ⟨l0, ls⟩
      · exact absurd hr (splitLines_ne_nil rest)
      · simp only [h, if_false, hr] at hl
        rcases List.mem_cons.mp hl with rfl | hl
        · intro hm
          rcases List.mem_cons.mp hm with heq | hm
          · exact h heq.symm
          · exact ih (by rw [hr]; exact List.mem_cons_self l0 ls) hm
        · exact ih (by rw [hr]; exact List.mem_cons_of_mem _ hl)

theorem splitLines_single {l : List Char} (h : '\n' ∉ l) : splitLines l = [l] := by
  induction l with
  | nil => simp [splitLines]
  | cons c rest ih =>
    simp only [List.mem_cons, not_or] at h
    obtain ⟨h1, h2⟩ := h
    unfold splitLines
    rw [if_neg (fun hc => h1 hc.symm), ih h2]

theorem splitLines_append_newline {l : List Char} (h : '\n' ∉ l) (rest : List Char) :
    splitLines (l ++ '\n' :: rest) = l :: splitLines rest := by
  induction l with
  | nil =>
    simp [splitLines]
  | cons c lr ih =>
    simp only [List.mem_cons, not_or] at h
    obtain ⟨h1, h2⟩ := h
    have hstep : splitLines ((c :: lr) ++ '\n' :: rest) =
        match splitLines (lr ++ '\n' :: rest) with
        | l :: ls => (c :: l) :: ls
        | [] => [[c]] := by
      simp only [List.cons_append]
      rw [splitLines, if_neg (fun hc => h1 hc.symm)]
    rw [hstep, ih h2]

theorem splitLines_joinLines {L : List (List Char)} (hne : L ≠ [])
    (hnl : ∀ l ∈ L, '\n' ∉ l) : splitLines (joinLines L) = L := by
  induction L with
  | nil => exact absurd rfl hne
  | cons l ls ih =>
    cases ls with
    | nil =>
      show splitLines (joinLines [l]) = [l]
      unfold joinLines
      exact splitLines_single (hnl l (List.mem_cons_self _ _))
    | cons l2 ls2 =>
      have hj : joinLines (l :: l2 :: ls2) = l ++ '\n' :: joinLines (l2 :: ls2) := rfl
      rw [hj, splitLines_append_newline (hnl l (List.mem_cons_self _ _)),
        ih (by simp) (fun x hx => hnl x (List.mem_cons_of_mem _ hx))]

/-! ## `pyReplace` with an unchanged replacement -/

theorem pyReplace_self (s pat : List Char) : pyReplace s pat pat = s := by
  have key : ∀ (m : Nat) (s : List Char), s.length ≤ m → pyReplace s pat pat = s := by
    intro m
    induction m with
    | zero =>
      intro s hs
      have : s = [] := List.eq_nil_of_length_eq_zero (Nat.le_zero.mp hs)
      subst this
      rw [pyReplace]
    | succ m ih =>
      intro s hs
      rcases s with _ | ⟨c, rest⟩
      · rw [pyReplace]
      · rw [pyReplace]
        by_cases h : pat ≠ [] ∧ pat.isPrefixOf (c :: rest)
        · rw [dif_pos h]
          obtain ⟨t, ht⟩ := isPrefixOf_exists.mp h.2
          have hd : (c :: rest).drop pat.length = t := by
            rw [ht]
            exact List.drop_left _ _
          have hlt : t.length ≤ m := by
            have := congrArg List.length ht
            have hp : 0 < pat.length := List.length_pos.mpr h.1
            simp at this hs
            omega
          rw [hd, ih t hlt]
          exact ht.symm
        · rw [dif_neg h]
          have : rest.length ≤ m := by
            simp at hs
            omega
          rw [ih rest this]
  exact key s.length s le_rfl

/-! ## Skipping runs: every requested name already present -/

theorem runMainFiles_skip_all {files : List (List Char × List Char)}
    {supply : Nat → List Char} {k : Nat} {c : List Char}
    (h : ∀ p ∈ files, pyContains c p.2 = true) :
    runMainFiles files supply k c = (c, k) := by
  induction files with
  | nil => rfl
  | cons p rest ih =>
    unfold runMainFiles
    rw [if_pos (h p (List.mem_cons_self _ _))]
    exact ih (fun x hx => h x (List.mem_cons_of_mem _ hx))

theorem runTestFiles_skip_all {files : List (List Char × List Char)}
    {supply : Nat → List Char} {k : Nat} {c : List Char}
    (h : ∀ p ∈ files, pyContains c p.2 = true) :
    runTestFiles files supply k c = (c, k) := by
  induction files with
  | nil => rfl
  | cons p rest ih =>
    unfold runTestFiles
    rw [if_pos (h p (List.mem_cons_self _ _))]
    exact ih (fun x hx => h x (List.mem_cons_of_mem _ hx))

/-! ## Length accounting -/

theorem pySlicePos_le (s : List Char) (i : Int) : pySlicePos s i ≤ s.length := by
  unfold pySlicePos
  split
  · omega
  · exact Nat.min_le_right _ _

theorem length_pySplice (s : List Char) (i : Int) (t : List Char) :
    (pySplice s i t).length = s.length + t.length := by
  unfold pySplice
  have hle : pySlicePos s i ≤ s.length := pySlicePos_le s i
  simp only [List.length_append, List.length_take, List.length_drop]
  omega

theorem length_lt_processMainFile {c n : List Char} (fu bu : List Char)
    (h : pyContains c n = false) : c.length < (processMainFile c n fu bu).length := by
  unfold processMainFile
  rw [if_neg (by simp [h])]
  have h1 : c.length < (afterEntries c n fu bu).length := by
    show c.length <
      (insertAfterMarkerLine (insertAfterMarkerLine c bfSectionMarker
        (newBuildFileLine bu n fu)) frSectionMarker (newFileRefLine fu n)).length
    have e1 : (insertAfterMarkerLine c bfSectionMarker
        (newBuildFileLine bu n fu)).length =
        c.length + (newBuildFileLine bu n fu).length := length_pySplice _ _ _
    have e2 : (insertAfterMarkerLine (insertAfterMarkerLine c bfSectionMarker
        (newBuildFileLine bu n fu)) frSectionMarker (newFileRefLine fu n)).length =
        (insertAfterMarkerLine c bfSectionMarker (newBuildFileLine bu n fu)).length +
        (newFileRefLine fu n).length := length_pySplice _ _ _
    have e3 : 0 < (newBuildFileLine bu n fu).length := by
      unfold newBuildFileLine
      simp [s2l]
    omega
  have h2 := (sublist_groupInsertViaContentView (afterEntries c n fu bu) fu n).length_le
  have h3 := (sublist_targetInsert
    (groupInsertViaContentView (afterEntries c n fu bu) fu n)
    mainSourcesMarker bu n).length_le
  omega

/-- If the main-file loop returns the content unchanged, every requested
display name was already present in that content. -/
theorem runMainFiles_fst_eq_imp {files : List (List Char × List Char)}
    {supply : Nat → List Char} {k : Nat} {c : List Char}
    (h : (runMainFiles files supply k c).1 = c) :
    ∀ p ∈ files, pyContains c p.2 = true := by
  induction files with
  | nil =>
    intro p hp
    cases hp
  | cons p rest ih =>
    obtain ⟨pp, pn⟩ := p
    intro x hx
    have hstep : runMainFiles ((pp, pn) :: rest) supply k c =
        if pyContains c pn then runMainFiles rest supply k c
        else runMainFiles rest supply (k + 2)
          (processMainFile c pn (supply k) (supply (k + 1))) := rfl
    by_cases hc : pyContains c pn
    · have h' : (runMainFiles rest supply k c).1 = c := by
        rw [hstep, if_pos hc] at h
        exact h
      rcases List.mem_cons.mp hx with rfl | hx'
      · exact hc
      · exact ih h' x hx'
    · exfalso
      have hc' : pyContains c pn = false := by simpa using hc
      have hlt : c.length <
          (processMainFile c pn (supply k) (supply (k + 1))).length :=
        length_lt_processMainFile _ _ hc'
      rw [hstep, if_neg hc] at h
      have hle := (sublist_runMainFiles rest supply (k + 2)
        (processMainFile c pn (supply k) (supply (k + 1)))).length_le
      have hlen := congrArg List.length h
      omega

/-! ## Claim theorems -/

/-- C10: the path-fix operation (`fix_path.py`) is an identity on the
manifest: for every input manifest it writes back content byte-identical
to what it read, because its only text replacement substitutes a string
with itself and its scan over the lines only prints. -/
theorem c10_fixPath_identity (c : List Char) : fixPath c = c :=
  pyReplace_self c fixPathPattern

/-- C5: after the unregister operation (`remove_refs.py`, display name as
a parameter; the shipped script fixes it to `NaviGPTCore.swift`), no line
of the written-back manifest contains the display name as a substring,
for every input manifest and every non-empty display name. -/
theorem c5_removal_superset (c name : List Char) (hname : name ≠ []) :
    (splitLines (removeLinesContaining name c)).all
      (fun l => !pyContains l name) = true := by
  unfold removeLinesContaining
  rcases hLe : (splitLines c).filter (fun line => !pyContains line name) with _ | ⟨l0, ls⟩
  · rcases name with _ | ⟨a, na⟩
    · exact absurd rfl hname
    · rfl
  · have hnl : ∀ l ∈ l0 :: ls, '\n' ∉ l := by
      intro l hl
      rw [← hLe] at hl
      exact nl_not_mem_of_mem_splitLines (List.mem_of_mem_filter hl)
    rw [splitLines_joinLines (by simp) hnl, List.all_eq_true]
    intro l hl
    rw [← hLe] at hl
    exact (List.mem_filter.mp hl).2

/-- Witness for C5 at a concrete manifest and name. -/
theorem c5_removal_superset_witness :
    s2l "NaviGPTCore.swift" ≠ [] ∧
    (splitLines (removeLinesContaining (s2l "NaviGPTCore.swift")
      (s2l "keep this line\n\t\tAB /* NaviGPTCore.swift */,\nlast line"))).all
      (fun l => !pyContains l (s2l "NaviGPTCore.swift")) = true :=
  ⟨by decide, c5_removal_superset _ _ (by decide)⟩

/-- C9: the unregister operation touches nothing but the matching lines:
the lines of the written-back manifest are exactly the input lines that do
not contain the display name, unchanged and in their original relative
order, and no new lines are introduced; if no line survives, the
written-back text is empty. -/
theorem c9_removal_frame (c name : List Char) :
    splitLines (removeLinesContaining name c) =
      (splitLines c).filter (fun line => !pyContains line name) ∨
    (removeLinesContaining name c = [] ∧
      (splitLines c).filter (fun line => !pyContains line name) = []) := by
  rcases hLe : (splitLines c).filter (fun line => !pyContains line name) with _ | ⟨l0, ls⟩
  · right
    refine ⟨?_, rfl⟩
    unfold removeLinesContaining
    rw [hLe]
    rfl
  · left
    unfold removeLinesContaining
    rw [splitLines_joinLines (by rw [hLe]; simp)
      (fun l hl => nl_not_mem_of_mem_splitLines (List.mem_of_mem_filter hl)), hLe]

/-- C4: a registration request whose display name already occurs anywhere
in the current manifest text performs no insertions for that file (and
consumes no identifiers); this applies at every loop position, so names
inserted earlier in the same run also trigger the skip, since the loop
threads the updated content into each check. -/
theorem c4_duplicate_skip (path n : List Char) (rest : List (List Char × List Char))
    (supply : Nat → List Char) (k : Nat) (c fu bu : List Char)
    (h : pyContains c n = true) :
    runMainFiles ((path, n) :: rest) supply k c = runMainFiles rest supply k c ∧
    runTestFiles ((path, n) :: rest) supply k c = runTestFiles rest supply k c ∧
    runPhase3Files ((path, n) :: rest) supply k c = runPhase3Files rest supply k c ∧
    processMainFile c n fu bu = c := by
  refine ⟨?_, ?_, ?_, ?_⟩
  · show (if pyContains c n then runMainFiles rest supply k c
      else runMainFiles rest supply (k + 2)
        (processMainFile c n (supply k) (supply (k + 1)))) =
      runMainFiles rest supply k c
    rw [if_pos h]
  · show (if pyContains c n then runTestFiles rest supply k c
      else runTestFiles rest supply (k + 2)
        (processTestFile c n (supply k) (supply (k + 1)))) =
      runTestFiles rest supply k c
    rw [if_pos h]
  · show (if pyContains c n then runPhase3Files rest supply k c
      else runPhase3Files rest supply (k + 2)
        (processPhase3File c n (supply k) (supply (k + 1)))) =
      runPhase3Files rest supply k c
    rw [if_pos h]
  · unfold processMainFile
    rw [if_pos h]

/-- Witness for C4 at a concrete manifest already containing the name. -/
theorem c4_duplicate_skip_witness :
    pyContains (s2l "text with Foo.swift inside") (s2l "Foo.swift") = true ∧
    (runMainFiles [(s2l "p", s2l "Foo.swift")] (fun _ => s2l "U") 0
        (s2l "text with Foo.swift inside") =
      runMainFiles [] (fun _ => s2l "U") 0 (s2l "text with Foo.swift inside") ∧
    runTestFiles [(s2l "p", s2l "Foo.swift")] (fun _ => s2l "U") 0
        (s2l "text with Foo.swift inside") =
      runTestFiles [] (fun _ => s2l "U") 0 (s2l "text with Foo.swift inside") ∧
    runPhase3Files [(s2l "p", s2l "Foo.swift")] (fun _ => s2l "U") 0
        (s2l "text with Foo.swift inside") =
      runPhase3Files [] (fun _ => s2l "U") 0 (s2l "text with Foo.swift inside") ∧
    processMainFile (s2l "text with Foo.swift inside") (s2l "Foo.swift")
      (s2l "U") (s2l "V") = s2l "text with Foo.swift inside") :=
  ⟨by decide, c4_duplicate_skip (s2l "p") (s2l "Foo.swift") [] (fun _ => s2l "U") 0
    (s2l "text with Foo.swift inside") (s2l "U") (s2l "V") (by decide)⟩

/-- C7: a registration run of `add_phase_files_to_xcode.py` only inserts
new text into the manifest: the original content is a subsequence of the
written-back content (split only at the insertion points), so no existing
content is modified or deleted. -/
theorem c7_insertion_only (c : List Char) (supply : Nat → List Char) :
    c.Sublist (addPhaseFiles supply c) := by
  unfold addPhaseFiles
  exact (sublist_runMainFiles mainTargetFiles supply 0 c).trans
    (sublist_runTestFiles testTargetFiles supply _ _)

/-- C6 counterexample: on a manifest lacking the `PBXBuildFile` section
marker, `add_file_manually` aborts and the manifest is never written back
(`none` models `return False` / exit 1 before any write), contradicting
the claim that a missing section marker is always a soft failure that
still ends in a write. -/
theorem c6_counterexample :
    addFileManually (s2l "no section markers in this manifest\n")
      (s2l "FREF0000000000000000000A") (s2l "BFIL0000000000000000000A") = none := by
  decide

/-- C6 (amended): in `add_to_xcode.py` a missing `PBXBuildFile` or
`PBXFileReference` section marker is fatal — the run aborts with no
write; only the group anchor (`ContentView.swift`) and the sources anchor
(`/* Sources */ = {`) are soft: when they are missing, that sub-insertion
is skipped and the manifest is still written back.  (In the phase
scripts, which never abort, missing group and target anchors skip those
sub-insertions, as stated by the other conjuncts through
`groupInsertViaContentView` and `afmSources`.) -/
theorem c6_marker_fatal_anchor_soft (c fu bu : List Char) :
    (pyFind c bfSectionMarker = -1 → addFileManually c fu bu = none) ∧
    (pyFind c bfSectionMarker ≠ -1 →
      pyFind (afmEntry1 c fu bu) frSectionMarker = -1 →
      addFileManually c fu bu = none) ∧
    (pyFind c bfSectionMarker ≠ -1 →
      pyFind (afmEntry1 c fu bu) frSectionMarker ≠ -1 →
      addFileManually c fu bu =
        some (afmFinish (afmEntry2 (afmEntry1 c fu bu) fu) fu bu)) ∧
    (∀ d : List Char, pyFind d contentViewAnchor = -1 →
      groupInsertViaContentView d fu naviCoreName = d) ∧
    (∀ d : List Char, pyFind d sourcesBraceMarker = -1 → afmSources d bu = d) := by
  refine ⟨?_, ?_, ?_, ?_, ?_⟩
  · intro h
    unfold addFileManually
    rw [if_pos h]
  · intro h1 h2
    unfold addFileManually
    rw [if_neg h1, if_pos h2]
  · intro h1 h2
    unfold addFileManually
    rw [if_neg h1, if_neg h2]
  · intro d hd
    unfold groupInsertViaContentView
    rw [if_pos hd]
  · intro d hd
    unfold afmSources
    rw [if_pos hd]

/-- Witness for C6 (amended) at a concrete manifest holding both section
markers but neither anchor: both entry insertions happen and the manifest
is still written (a `some` result). -/
theorem c6_marker_fatal_anchor_soft_witness :
    (pyFind (s2l "/* Begin PBXBuildFile section */\n/* Begin PBXFileReference section */\n")
        bfSectionMarker ≠ -1 ∧
      pyFind (afmEntry1
        (s2l "/* Begin PBXBuildFile section */\n/* Begin PBXFileReference section */\n")
        (s2l "FREF0000000000000000000A") (s2l "BFIL0000000000000000000A"))
        frSectionMarker ≠ -1) ∧
    addFileManually
      (s2l "/* Begin PBXBuildFile section */\n/* Begin PBXFileReference section */\n")
      (s2l "FREF0000000000000000000A") (s2l "BFIL0000000000000000000A") =
      some (afmFinish (afmEntry2 (afmEntry1
        (s2l "/* Begin PBXBuildFile section */\n/* Begin PBXFileReference section */\n")
        (s2l "FREF0000000000000000000A") (s2l "BFIL0000000000000000000A"))
        (s2l "FREF0000000000000000000A"))
        (s2l "FREF0000000000000000000A") (s2l "BFIL0000000000000000000A")) :=
  ⟨⟨by decide, by decide⟩,
    (c6_marker_fatal_anchor_soft _ _ _).2.2.1 (by decide) (by decide)⟩

/-- C8: group-membership resolution in `add_phase3_files_to_xcode.py`
follows the stated order on the content as it stands after the two entry
insertions: first the `/* Services */` section marker; only if it is
absent, the children list located from the `ContentView.swift` sibling
anchor; and if that also fails the group-membership sub-insertion is
skipped while the entry insertions (already performed) and the
target-sources sub-insertion still proceed. -/
theorem c8_group_resolution_order (c n fu bu : List Char)
    (hdup : pyContains c n = false) :
    (pyFind (afterEntries c n fu bu) servicesMarker ≠ -1 →
      processPhase3File c n fu bu =
        targetInsert (servicesBranch (afterEntries c n fu bu) fu n)
          mainSourcesMarker bu n) ∧
    (pyFind (afterEntries c n fu bu) servicesMarker = -1 →
      processPhase3File c n fu bu =
        targetInsert (groupInsertViaContentView (afterEntries c n fu bu) fu n)
          mainSourcesMarker bu n) ∧
    (pyFind (afterEntries c n fu bu) servicesMarker = -1 →
      pyFind (afterEntries c n fu bu) contentViewAnchor = -1 →
      processPhase3File c n fu bu =
        targetInsert (afterEntries c n fu bu) mainSourcesMarker bu n) := by
  have hd : ¬(pyContains c n = true) := by simp [hdup]
  refine ⟨?_, ?_, ?_⟩
  · intro hs
    unfold processPhase3File
    rw [if_neg hd]
    show targetInsert (if pyFind (afterEntries c n fu bu) servicesMarker = -1
      then groupInsertViaContentView (afterEntries c n fu bu) fu n
      else servicesBranch (afterEntries c n fu bu) fu n) mainSourcesMarker bu n = _
    rw [if_neg hs]
  · intro hs
    unfold processPhase3File
    rw [if_neg hd]
    show targetInsert (if pyFind (afterEntries c n fu bu) servicesMarker = -1
      then groupInsertViaContentView (afterEntries c n fu bu) fu n
      else servicesBranch (afterEntries c n fu bu) fu n) mainSourcesMarker bu n = _
    rw [if_pos hs]
  · intro hs hcv
    unfold processPhase3File
    rw [if_neg hd]
    show targetInsert (if pyFind (afterEntries c n fu bu) servicesMarker = -1
      then groupInsertViaContentView (afterEntries c n fu bu) fu n
      else servicesBranch (afterEntries c n fu bu) fu n) mainSourcesMarker bu n = _
    rw [if_pos hs]
    unfold groupInsertViaContentView
    rw [if_pos hcv]

/-- Witness for C8 with the Services marker present: the Services branch
is taken. -/
theorem c8_group_resolution_order_witness :
    (pyContains
      (s2l "/* Begin PBXBuildFile section */\n/* Begin PBXFileReference section */\nchildren = (\n\t\tAB /* Services */\n);\n")
      (s2l "RealTimeCameraProcessor.swift") = false ∧
    pyFind (afterEntries
      (s2l "/* Begin PBXBuildFile section */\n/* Begin PBXFileReference section */\nchildren = (\n\t\tAB /* Services */\n);\n")
      (s2l "RealTimeCameraProcessor.swift") (s2l "FREF0000000000000000000B")
      (s2l "BFIL0000000000000000000B")) servicesMarker ≠ -1) ∧
    processPhase3File
      (s2l "/* Begin PBXBuildFile section */\n/* Begin PBXFileReference section */\nchildren = (\n\t\tAB /* Services */\n);\n")
      (s2l "RealTimeCameraProcessor.swift") (s2l "FREF0000000000000000000B")
      (s2l "BFIL0000000000000000000B") =
    targetInsert (servicesBranch (afterEntries
      (s2l "/* Begin PBXBuildFile section */\n/* Begin PBXFileReference section */\nchildren = (\n\t\tAB /* Services */\n);\n")
      (s2l "RealTimeCameraProcessor.swift") (s2l "FREF0000000000000000000B")
      (s2l "BFIL0000000000000000000B"))
      (s2l "FREF0000000000000000000B") (s2l "RealTimeCameraProcessor.swift"))
      mainSourcesMarker (s2l "BFIL0000000000000000000B")
      (s2l "RealTimeCameraProcessor.swift") :=
  ⟨⟨by decide, by decide⟩,
    (c8_group_resolution_order _ _ _ _ (by decide)).1 (by decide)⟩

/-- When both group-anchor lookups succeed, the group insertion is the
splice before the closing `);` of the located children list. -/
theorem groupInsertViaContentView_eq {c : List Char} (fu n : List Char)
    (hcv : pyFind c contentViewAnchor ≠ -1)
    (hss : pyRfind c childrenOpen (pyFind c contentViewAnchor) ≠ -1) :
    groupInsertViaContentView c fu n =
      pySplice c (pyFindFrom c closeParen
        (pyRfind c childrenOpen (pyFind c contentViewAnchor))) (groupChildLine fu n) := by
  unfold groupInsertViaContentView
  show (if pyFind c contentViewAnchor = -1 then c
    else if pyRfind c childrenOpen (pyFind c contentViewAnchor) = -1 then c
    else pySplice c (pyFindFrom c closeParen
      (pyRfind c childrenOpen (pyFind c contentViewAnchor))) (groupChildLine fu n)) = _
  rw [if_neg hcv, if_neg hss]

/-- When the target marker is found, the target insertion is the splice
before the closing `);` of its files list. -/
theorem targetInsert_eq {c : List Char} (marker bu n : List Char)
    (ht : pyFind c marker ≠ -1) :
    targetInsert c marker bu n =
      pySplice c (pyFindFrom c closeParen (pyFindFrom c filesOpen (pyFind c marker)))
        (targetFileLine bu n) := by
  unfold targetInsert
  show (if pyFind c marker = -1 then c
    else pySplice c (pyFindFrom c closeParen (pyFindFrom c filesOpen (pyFind c marker)))
      (targetFileLine bu n)) = _
  rw [if_neg ht]

/-- C3 counterexample: on a manifest holding only the two section markers
(no group anchor, no target marker), registering a fresh file inserts the
file-reference and build-file entries but no group membership and no
target membership — the file ends partially registered, so "either all
four records exist or none do" fails. -/
theorem c3_counterexample :
    pyContains (processMainFile
        (s2l "/* Begin PBXBuildFile section */\n/* Begin PBXFileReference section */\n")
        (s2l "Bar.swift") (s2l "FREFC30000000000000000AA") (s2l "BFILC30000000000000000AA"))
      (newBuildFileLine (s2l "BFILC30000000000000000AA") (s2l "Bar.swift")
        (s2l "FREFC30000000000000000AA")) = true ∧
    pyContains (processMainFile
        (s2l "/* Begin PBXBuildFile section */\n/* Begin PBXFileReference section */\n")
        (s2l "Bar.swift") (s2l "FREFC30000000000000000AA") (s2l "BFILC30000000000000000AA"))
      (newFileRefLine (s2l "FREFC30000000000000000AA") (s2l "Bar.swift")) = true ∧
    pyContains (processMainFile
        (s2l "/* Begin PBXBuildFile section */\n/* Begin PBXFileReference section */\n")
        (s2l "Bar.swift") (s2l "FREFC30000000000000000AA") (s2l "BFILC30000000000000000AA"))
      (groupChildLine (s2l "FREFC30000000000000000AA") (s2l "Bar.swift")) = false ∧
    pyContains (processMainFile
        (s2l "/* Begin PBXBuildFile section */\n/* Begin PBXFileReference section */\n")
        (s2l "Bar.swift") (s2l "FREFC30000000000000000AA") (s2l "BFILC30000000000000000AA"))
      (targetFileLine (s2l "BFILC30000000000000000AA") (s2l "Bar.swift")) = false ∧
    processMainFile
        (s2l "/* Begin PBXBuildFile section */\n/* Begin PBXFileReference section */\n")
        (s2l "Bar.swift") (s2l "FREFC30000000000000000AA") (s2l "BFILC30000000000000000AA") ≠
      s2l "/* Begin PBXBuildFile section */\n/* Begin PBXFileReference section */\n" :=
  ⟨by decide, by decide, by decide, by decide, ne_of_beq_false (by decide)⟩

/-- C3 (amended): per requested file, registration is atomic only in its
two entry insertions: either the duplicate check skips the file entirely
(the manifest is unchanged), or the file-reference and build-file entries
are both inserted, after which the group and target memberships are
attempted individually and may be skipped — a partially registered file is
not rolled back. -/
theorem c3_entry_pair_or_skip (c n fu bu : List Char)
    (h1 : '\n' ∉ bu) (h2 : '\n' ∉ n) (h3 : '\n' ∉ fu) :
    processMainFile c n fu bu = c ∨
    (pyContains (afterEntries c n fu bu) (newBuildFileLine bu n fu) = true ∧
     pyContains (afterEntries c n fu bu) (newFileRefLine fu n) = true ∧
     processMainFile c n fu bu =
       targetInsert (groupInsertViaContentView (afterEntries c n fu bu) fu n)
         mainSourcesMarker bu n) := by
  by_cases h : pyContains c n
  · left
    unfold processMainFile
    rw [if_pos h]
  · right
    refine ⟨afterEntries_contains_buildFile h1 h2 h3,
      afterEntries_contains_fileRef _ _ _ _, ?_⟩
    unfold processMainFile
    rw [if_neg h]

/-- Witness for C3 (amended) at concrete newline-free inputs. -/
theorem c3_entry_pair_or_skip_witness :
    ('\n' ∉ s2l "BFILC30000000000000000AB" ∧ '\n' ∉ s2l "Bar.swift" ∧
      '\n' ∉ s2l "FREFC30000000000000000AB") ∧
    (processMainFile (s2l "x\n") (s2l "Bar.swift") (s2l "FREFC30000000000000000AB")
        (s2l "BFILC30000000000000000AB") = s2l "x\n" ∨
    (pyContains (afterEntries (s2l "x\n") (s2l "Bar.swift")
        (s2l "FREFC30000000000000000AB") (s2l "BFILC30000000000000000AB"))
      (newBuildFileLine (s2l "BFILC30000000000000000AB") (s2l "Bar.swift")
        (s2l "FREFC30000000000000000AB")) = true ∧
     pyContains (afterEntries (s2l "x\n") (s2l "Bar.swift")
        (s2l "FREFC30000000000000000AB") (s2l "BFILC30000000000000000AB"))
      (newFileRefLine (s2l "FREFC30000000000000000AB") (s2l "Bar.swift")) = true ∧
     processMainFile (s2l "x\n") (s2l "Bar.swift") (s2l "FREFC30000000000000000AB")
        (s2l "BFILC30000000000000000AB") =
       targetInsert (groupInsertViaContentView (afterEntries (s2l "x\n") (s2l "Bar.swift")
          (s2l "FREFC30000000000000000AB") (s2l "BFILC30000000000000000AB"))
          (s2l "FREFC30000000000000000AB") (s2l "Bar.swift"))
         mainSourcesMarker (s2l "BFILC30000000000000000AB") (s2l "Bar.swift"))) :=
  ⟨⟨by decide, by decide, by decide⟩,
    c3_entry_pair_or_skip _ _ _ _ (by decide) (by decide) (by decide)⟩

/-- C2: for a file that is successfully registered — the duplicate check
misses and all anchor lookups succeed, so all four sub-insertions execute
— the written content is the input with exactly four insertions, one per
record kind (file-reference entry, build-file entry, group-children
membership, target-sources membership), and the identifiers
cross-reference as claimed: the build-file entry carries
`fileRef = <file-reference id>`, the group membership carries the
file-reference id, and the target membership carries the build-file id. -/
theorem c2_four_way_coupling (c n fu bu : List Char)
    (hdup : pyContains c n = false)
    (hcv : pyFind (afterEntries c n fu bu) contentViewAnchor ≠ -1)
    (hss : pyRfind (afterEntries c n fu bu) childrenOpen
      (pyFind (afterEntries c n fu bu) contentViewAnchor) ≠ -1)
    (hnt : pyFind (groupInsertViaContentView (afterEntries c n fu bu) fu n)
      mainSourcesMarker ≠ -1) :
    (∃ p1 p2 p3 p4 : Int,
      processMainFile c n fu bu =
        pySplice (pySplice (pySplice (pySplice c p1 (newBuildFileLine bu n fu))
          p2 (newFileRefLine fu n)) p3 (groupChildLine fu n)) p4 (targetFileLine bu n)) ∧
    (∃ u v, u ++ s2l "fileRef = " ++ fu ++ v = newBuildFileLine bu n fu) ∧
    (∃ u v, u ++ fu ++ v = newFileRefLine fu n) ∧
    (∃ u v, u ++ fu ++ v = groupChildLine fu n) ∧
    (∃ u v, u ++ bu ++ v = targetFileLine bu n) := by
  have hd : ¬(pyContains c n = true) := by simp [hdup]
  have e0 : processMainFile c n fu bu =
      targetInsert (groupInsertViaContentView (afterEntries c n fu bu) fu n)
        mainSourcesMarker bu n := by
    unfold processMainFile
    rw [if_neg hd]
  refine ⟨?_, ?_, ?_, ?_, ?_⟩
  · exact ⟨_, _, _, _, by
      rw [e0, targetInsert_eq _ _ _ hnt, groupInsertViaContentView_eq _ _ hcv hss]
      rfl⟩
  · have hsplit : s2l " in Sources */ = \x7bisa = PBXBuildFile; fileRef = " =
        s2l " in Sources */ = \x7bisa = PBXBuildFile; " ++ s2l "fileRef = " := by decide
    refine ⟨s2l "\t\t" ++ bu ++ s2l " /* " ++ n ++
      s2l " in Sources */ = \x7bisa = PBXBuildFile; ",
      s2l " /* " ++ n ++ s2l " */; \x7d;" ++ s2l "\n", ?_⟩
    simp only [newBuildFileLine, newBuildFileBody, hsplit, List.append_assoc]
  · refine ⟨s2l "\t\t", s2l " /* " ++ n ++
      s2l " */ = \x7bisa = PBXFileReference; lastKnownFileType = sourcecode.swift; path = " ++
      n ++ s2l "; sourceTree = \"<group>\"; \x7d;" ++ s2l "\n", ?_⟩
    simp only [newFileRefLine, newFileRefBody, List.append_assoc]
  · exact ⟨s2l "\t\t\t\t", s2l " /* " ++ n ++ s2l " */,\n\t\t\t", by
      simp only [groupChildLine, List.append_assoc]⟩
  · exact ⟨s2l "\t\t\t\t", s2l " /* " ++ n ++ s2l " in Sources */,\n\t\t\t", by
      simp only [targetFileLine, List.append_assoc]⟩

/-- Witness for C2 at a concrete manifest where the duplicate check
misses and every anchor resolves. -/
theorem c2_four_way_coupling_witness :
    (pyContains
      (s2l "/* Begin PBXBuildFile section */\n/* Begin PBXFileReference section */\nchildren = (\nContentView.swift\n);\nE1F569CB2C501D880010BF96 /* Sources */\nfiles = (\n);\n")
      (s2l "Foo.swift") = false ∧
    pyFind (afterEntries
      (s2l "/* Begin PBXBuildFile section */\n/* Begin PBXFileReference section */\nchildren = (\nContentView.swift\n);\nE1F569CB2C501D880010BF96 /* Sources */\nfiles = (\n);\n")
      (s2l "Foo.swift") (s2l "FREFC20000000000000000AA") (s2l "BFILC20000000000000000AA"))
      contentViewAnchor ≠ -1 ∧
    pyRfind (afterEntries
      (s2l "/* Begin PBXBuildFile section */\n/* Begin PBXFileReference section */\nchildren = (\nContentView.swift\n);\nE1F569CB2C501D880010BF96 /* Sources */\nfiles = (\n);\n")
      (s2l "Foo.swift") (s2l "FREFC20000000000000000AA") (s2l "BFILC20000000000000000AA"))
      childrenOpen (pyFind (afterEntries
      (s2l "/* Begin PBXBuildFile section */\n/* Begin PBXFileReference section */\nchildren = (\nContentView.swift\n);\nE1F569CB2C501D880010BF96 /* Sources */\nfiles = (\n);\n")
      (s2l "Foo.swift") (s2l "FREFC20000000000000000AA") (s2l "BFILC20000000000000000AA"))
      contentViewAnchor) ≠ -1 ∧
    pyFind (groupInsertViaContentView (afterEntries
      (s2l "/* Begin PBXBuildFile section */\n/* Begin PBXFileReference section */\nchildren = (\nContentView.swift\n);\nE1F569CB2C501D880010BF96 /* Sources */\nfiles = (\n);\n")
      (s2l "Foo.swift") (s2l "FREFC20000000000000000AA") (s2l "BFILC20000000000000000AA"))
      (s2l "FREFC20000000000000000AA") (s2l "Foo.swift")) mainSourcesMarker ≠ -1) ∧
    (∃ p1 p2 p3 p4 : Int,
      processMainFile
        (s2l "/* Begin PBXBuildFile section */\n/* Begin PBXFileReference section */\nchildren = (\nContentView.swift\n);\nE1F569CB2C501D880010BF96 /* Sources */\nfiles = (\n);\n")
        (s2l "Foo.swift") (s2l "FREFC20000000000000000AA") (s2l "BFILC20000000000000000AA") =
      pySplice (pySplice (pySplice (pySplice
        (s2l "/* Begin PBXBuildFile section */\n/* Begin PBXFileReference section */\nchildren = (\nContentView.swift\n);\nE1F569CB2C501D880010BF96 /* Sources */\nfiles = (\n);\n")
        p1 (newBuildFileLine (s2l "BFILC20000000000000000AA") (s2l "Foo.swift")
          (s2l "FREFC20000000000000000AA")))
        p2 (newFileRefLine (s2l "FREFC20000000000000000AA") (s2l "Foo.swift")))
        p3 (groupChildLine (s2l "FREFC20000000000000000AA") (s2l "Foo.swift")))
        p4 (targetFileLine (s2l "BFILC20000000000000000AA") (s2l "Foo.swift"))) :=
  ⟨⟨by decide, by decide, by decide, by decide⟩,
    (c2_four_way_coupling _ _ _ _ (by decide) (by decide) (by decide) (by decide)).1⟩

/-- C1 counterexample: a manifest on which running the registration twice
is not byte-identical to running it once.  The manifest contains eleven of
the twelve display names (all but `NavigationContext.swift`) and no `);`
anywhere, and ends with `ModelTypes.swift`.  In the first run only
`NavigationContext.swift` is registered, and its group-children insertion
falls back to `content[:-1]` splicing (Python `find(');') == -1`), which
splits the trailing `ModelTypes.swift` occurrence in two; the second run
therefore misses `ModelTypes.swift` in its duplicate check and performs
fresh insertions, so the twice-run content differs from the once-run
content. -/
theorem c1_counterexample :
    addPhaseFiles (fun _ => s2l "AAAAAAAAAAAAAAAAAAAAAAAA")
        (addPhaseFiles (fun _ => s2l "AAAAAAAAAAAAAAAAAAAAAAAA")
          (s2l "/* Begin PBXBuildFile section */\n/* Begin PBXFileReference section */\nchildren = (ContentView.swift\nConfigManager.swift NaviGPTCore.swift ObstacleInfo.swift VisionModels.swift CoreMLModelManager.swift VisionModelProcessor.swift DepthEstimationProcessor.swift ConfigManagerTests.swift ObstacleInfoTests.swift Phase2Tests.swift\nModelTypes.swift")) ≠
      addPhaseFiles (fun _ => s2l "AAAAAAAAAAAAAAAAAAAAAAAA")
        (s2l "/* Begin PBXBuildFile section */\n/* Begin PBXFileReference section */\nchildren = (ContentView.swift\nConfigManager.swift NaviGPTCore.swift ObstacleInfo.swift VisionModels.swift CoreMLModelManager.swift VisionModelProcessor.swift DepthEstimationProcessor.swift ConfigManagerTests.swift ObstacleInfoTests.swift Phase2Tests.swift\nModelTypes.swift") := by
  intro heq
  have h1 : (addPhaseFiles (fun _ => s2l "AAAAAAAAAAAAAAAAAAAAAAAA")
      (s2l "/* Begin PBXBuildFile section */\n/* Begin PBXFileReference section */\nchildren = (ContentView.swift\nConfigManager.swift NaviGPTCore.swift ObstacleInfo.swift VisionModels.swift CoreMLModelManager.swift VisionModelProcessor.swift DepthEstimationProcessor.swift ConfigManagerTests.swift ObstacleInfoTests.swift Phase2Tests.swift\nModelTypes.swift")).Sublist
      (runMainFiles mainTargetFiles (fun _ => s2l "AAAAAAAAAAAAAAAAAAAAAAAA") 0
        (addPhaseFiles (fun _ => s2l "AAAAAAAAAAAAAAAAAAAAAAAA")
          (s2l "/* Begin PBXBuildFile section */\n/* Begin PBXFileReference section */\nchildren = (ContentView.swift\nConfigManager.swift NaviGPTCore.swift ObstacleInfo.swift VisionModels.swift CoreMLModelManager.swift VisionModelProcessor.swift DepthEstimationProcessor.swift ConfigManagerTests.swift ObstacleInfoTests.swift Phase2Tests.swift\nModelTypes.swift"))).1 :=
    sublist_runMainFiles _ _ _ _
  have h2 : ((runMainFiles mainTargetFiles (fun _ => s2l "AAAAAAAAAAAAAAAAAAAAAAAA") 0
      (addPhaseFiles (fun _ => s2l "AAAAAAAAAAAAAAAAAAAAAAAA")
        (s2l "/* Begin PBXBuildFile section */\n/* Begin PBXFileReference section */\nchildren = (ContentView.swift\nConfigManager.swift NaviGPTCore.swift ObstacleInfo.swift VisionModels.swift CoreMLModelManager.swift VisionModelProcessor.swift DepthEstimationProcessor.swift ConfigManagerTests.swift ObstacleInfoTests.swift Phase2Tests.swift\nModelTypes.swift"))).1).Sublist
      (addPhaseFiles (fun _ => s2l "AAAAAAAAAAAAAAAAAAAAAAAA")
        (addPhaseFiles (fun _ => s2l "AAAAAAAAAAAAAAAAAAAAAAAA")
          (s2l "/* Begin PBXBuildFile section */\n/* Begin PBXFileReference section */\nchildren = (ContentView.swift\nConfigManager.swift NaviGPTCore.swift ObstacleInfo.swift VisionModels.swift CoreMLModelManager.swift VisionModelProcessor.swift DepthEstimationProcessor.swift ConfigManagerTests.swift ObstacleInfoTests.swift Phase2Tests.swift\nModelTypes.swift"))) :=
    sublist_runTestFiles _ _ _ _
  rw [heq] at h2
  have hms := h2.antisymm h1
  have hall := runMainFiles_fst_eq_imp hms
  have hct : pyContains (addPhaseFiles (fun _ => s2l "AAAAAAAAAAAAAAAAAAAAAAAA")
      (s2l "/* Begin PBXBuildFile section */\n/* Begin PBXFileReference section */\nchildren = (ContentView.swift\nConfigManager.swift NaviGPTCore.swift ObstacleInfo.swift VisionModels.swift CoreMLModelManager.swift VisionModelProcessor.swift DepthEstimationProcessor.swift ConfigManagerTests.swift ObstacleInfoTests.swift Phase2Tests.swift\nModelTypes.swift"))
      (s2l "ModelTypes.swift") = true :=
    hall (s2l "NaviGPT/Models/ModelTypes.swift", s2l "ModelTypes.swift") (by decide)
  have hcf : pyContains (addPhaseFiles (fun _ => s2l "AAAAAAAAAAAAAAAAAAAAAAAA")
      (s2l "/* Begin PBXBuildFile section */\n/* Begin PBXFileReference section */\nchildren = (ContentView.swift\nConfigManager.swift NaviGPTCore.swift ObstacleInfo.swift VisionModels.swift CoreMLModelManager.swift VisionModelProcessor.swift DepthEstimationProcessor.swift ConfigManagerTests.swift ObstacleInfoTests.swift Phase2Tests.swift\nModelTypes.swift"))
      (s2l "ModelTypes.swift") = false := by decide
  rw [hct] at hcf
  exact Bool.noConfusion hcf

/-- C1 (amended): if after the first run every requested display name
occurs in the resulting manifest text — which is the situation the claim's
own justification assumes, and holds on well-formed manifests where no
insertion cut splits a name occurrence — then the second run's duplicate
check fires for every file, zero insertions are performed, and the content
written back is byte-identical to the first run's output. -/
theorem c1_idempotent_of_names_present (c : List Char) (sA sB : Nat → List Char)
    (h : ∀ p ∈ mainTargetFiles ++ testTargetFiles,
      pyContains (addPhaseFiles sA c) p.2 = true) :
    addPhaseFiles sB (addPhaseFiles sA c) = addPhaseFiles sA c := by
  have h1 : ∀ p ∈ mainTargetFiles, pyContains (addPhaseFiles sA c) p.2 = true :=
    fun p hp => h p (List.mem_append_left _ hp)
  have h2 : ∀ p ∈ testTargetFiles, pyContains (addPhaseFiles sA c) p.2 = true :=
    fun p hp => h p (List.mem_append_right _ hp)
  show (runTestFiles testTargetFiles sB
    (runMainFiles mainTargetFiles sB 0 (addPhaseFiles sA c)).2
    (runMainFiles mainTargetFiles sB 0 (addPhaseFiles sA c)).1).1 = addPhaseFiles sA c
  rw [runMainFiles_skip_all h1]
  show (runTestFiles testTargetFiles sB 0 (addPhaseFiles sA c)).1 = addPhaseFiles sA c
  rw [runTestFiles_skip_all h2]

/-- Witness for C1 (amended) at a manifest already holding all twelve
display names: the first run inserts nothing and the second is
byte-identical. -/
theorem c1_idempotent_witness :
    (∀ p ∈ mainTargetFiles ++ testTargetFiles,
      pyContains (addPhaseFiles (fun _ => s2l "AAAAAAAAAAAAAAAAAAAAAAAA")
        (s2l "ConfigManager.swift NaviGPTCore.swift ModelTypes.swift NavigationContext.swift ObstacleInfo.swift VisionModels.swift CoreMLModelManager.swift VisionModelProcessor.swift DepthEstimationProcessor.swift ConfigManagerTests.swift ObstacleInfoTests.swift Phase2Tests.swift")) p.2 = true) ∧
    addPhaseFiles (fun _ => s2l "AAAAAAAAAAAAAAAAAAAAAAAA")
        (addPhaseFiles (fun _ => s2l "AAAAAAAAAAAAAAAAAAAAAAAA")
          (s2l "ConfigManager.swift NaviGPTCore.swift ModelTypes.swift NavigationContext.swift ObstacleInfo.swift VisionModels.swift CoreMLModelManager.swift VisionModelProcessor.swift DepthEstimationProcessor.swift ConfigManagerTests.swift ObstacleInfoTests.swift Phase2Tests.swift")) =
      addPhaseFiles (fun _ => s2l "AAAAAAAAAAAAAAAAAAAAAAAA")
        (s2l "ConfigManager.swift NaviGPTCore.swift ModelTypes.swift NavigationContext.swift ObstacleInfo.swift VisionModels.swift CoreMLModelManager.swift VisionModelProcessor.swift DepthEstimationProcessor.swift ConfigManagerTests.swift ObstacleInfoTests.swift Phase2Tests.swift") :=
  ⟨by decide, c1_idempotent_of_names_present _ _ _ (by decide)⟩
